import Mathlib

/-!
Shallow embedding of the HireAssist resume-parsing and match-scoring core
(`backend/app/services/resumeparser.py`, `backend/app/services/skills_service.py`,
`backend/app/api/v1/matching.py`), together with theorems settling the frozen
claims about that code.  Machine floats are modelled by exact rationals; Python
`round(x, 2)` (banker's rounding) is modelled by `pyRound2`.  String scanning
helpers mirror the specific regular expressions used by the source.
-/

set_option maxRecDepth 4000

namespace HireAssist

/-- Lowercase a string character-wise, as Python `str.lower()` does for ASCII text. -/
def strToLower (s : String) : String := String.mk (s.data.map Char.toLower)

/-- Boolean infix test on character lists: does the first list occur contiguously in the second. -/
def infixB (n : List Char) : List Char → Bool
  | [] => n.isEmpty
  | c :: t => n.isPrefixOf (c :: t) || infixB n t

/-- Python's `needle in hay` substring test. -/
def strContains (hay needle : String) : Bool := infixB needle.data hay.data

/-- Python's `str.endswith(suffix)`. -/
def strEndsWith (s suf : String) : Bool := suf.data.isSuffixOf s.data

/-- Python's `str.strip()` (whitespace on both ends; the rare form-feed and
vertical-tab cases of Python's definition do not occur in the texts modelled here). -/
def strTrim (s : String) : String :=
  String.mk (((s.data.dropWhile Char.isWhitespace).reverse.dropWhile Char.isWhitespace).reverse)

/-- Python truthiness of an optional string: `None` and `""` are falsy. -/
def truthyS (o : Option String) : Bool :=
  match o with
  | some s => s ≠ ""
  | none => false

/-! Rational arithmetic helpers.  The embedding computes with `Rat.divInt` and
`Rat.blt` (which the kernel evaluates) instead of the `@[irreducible]` field
operations; bridge lemmas prove them equal to the standard operations. -/

/-- Product of rationals, kernel-computable. -/
def qMul (a b : ℚ) : ℚ := Rat.divInt (a.num * b.num) ((a.den : ℤ) * (b.den : ℤ))

/-- Sum of rationals, kernel-computable. -/
def qAdd (a b : ℚ) : ℚ :=
  Rat.divInt (a.num * (b.den : ℤ) + b.num * (a.den : ℤ)) ((a.den : ℤ) * (b.den : ℤ))

/-- Difference of rationals, kernel-computable. -/
def qSub (a b : ℚ) : ℚ :=
  Rat.divInt (a.num * (b.den : ℤ) - b.num * (a.den : ℤ)) ((a.den : ℤ) * (b.den : ℤ))

/-- Quotient of rationals, kernel-computable (division by zero yields zero, as in Mathlib). -/
def qDiv (a b : ℚ) : ℚ := Rat.divInt (a.num * (b.den : ℤ)) ((a.den : ℤ) * b.num)

/-- Minimum of two rationals, kernel-computable; Python's `min(a, b)` returns
`a` when the two are equal, like `min`. -/
def qMin (a b : ℚ) : ℚ := if Rat.blt b a then b else a

/-- Floor of a rational, computed by flooring integer division (the denominator is positive). -/
def ratFloor (q : ℚ) : ℤ := Int.fdiv q.num (q.den : ℤ)

/-- Round a rational to the nearest integer, ties to even — Python's `round` contract. -/
def pyRoundInt (x : ℚ) : ℤ :=
  let n : ℤ := ratFloor x
  let f : ℚ := qSub x (Rat.divInt n 1)
  if Rat.blt f (mkRat 1 2) then n
  else if Rat.blt (mkRat 1 2) f then n + 1
  else if n % 2 = 0 then n else n + 1

/-- Python's `round(x, 2)` on the idealized (exact rational) reading of floats. -/
def pyRound2 (q : ℚ) : ℚ := Rat.divInt (pyRoundInt (qMul q 100)) 100

/-! ## Text utilities shared by the parsing pipeline -/

/-- Worker for `pySplitlines`, accumulating the current line in reverse. -/
def splitLinesAux (cur : List Char) : List Char → List String
  | [] => if cur.isEmpty then [] else [String.mk cur.reverse]
  | '\r' :: '\n' :: t => String.mk cur.reverse :: splitLinesAux [] t
  | '\r' :: t => String.mk cur.reverse :: splitLinesAux [] t
  | '\n' :: t => String.mk cur.reverse :: splitLinesAux [] t
  | c :: t => splitLinesAux (c :: cur) t

/-- Python's `str.splitlines()` for the common line boundaries LF, CR, CRLF. -/
def pySplitlines (s : String) : List String := splitLinesAux [] s.data

/-- The source's recurring `[l.strip() for l in text.splitlines() if l.strip()]`. -/
def cleanLines (text : String) : List String :=
  ((pySplitlines text).map strTrim).filter (fun l => l ≠ "")

/-- Characters kept by the skill normalizer's `[^a-z0-9 ]+` substitution. -/
def isNormChar (c : Char) : Bool := ('a' ≤ c && c ≤ 'z') || ('0' ≤ c && c ≤ '9') || c = ' '

/-- Replace each maximal run of characters outside `[a-z0-9 ]` by one space,
as `re.sub(r"[^a-z0-9 ]+", " ", ·)` does; the flag records being inside a run. -/
def squashAux : Bool → List Char → List Char
  | _, [] => []
  | inRun, c :: t =>
    if isNormChar c then c :: squashAux false t
    else if inRun then squashAux true t
    else ' ' :: squashAux true t

/-- The parser's `normalize`/`normalize_key` helper (resumeparser.py:117–119, 155–156):
lowercase, collapse non-alphanumeric runs to a space, strip. -/
def pyNormalize (s : String) : String := strTrim (String.mk (squashAux false (strToLower s).data))

/-- Worker for `pyWords`. -/
def wordsAux (cur : List Char) : List Char → List String
  | [] => if cur.isEmpty then [] else [String.mk cur.reverse]
  | c :: t =>
    if c.isWhitespace then
      if cur.isEmpty then wordsAux [] t else String.mk cur.reverse :: wordsAux [] t
    else wordsAux (c :: cur) t

/-- Python's argumentless `str.split()`: split on whitespace runs, dropping empties. -/
def pyWords (s : String) : List String := wordsAux [] s.data

/-- Python's `sep.join(parts)`. -/
def joinWith (sep : String) : List String → String
  | [] => ""
  | [s] => s
  | s :: rest => s ++ sep ++ joinWith sep rest

/-! ## Python dict model (insertion order, overwriting assignment) -/

/-- Membership test of a key in an association-list dict. -/
def dictHas (m : List (String × String)) (k : String) : Bool := m.any (fun p => p.1 == k)

/-- Lookup in an association-list dict. -/
def dictFind (m : List (String × String)) (k : String) : Option String :=
  (m.find? (fun p => p.1 == k)).map (fun p => p.2)

/-- Python dict assignment `m[k] = v`: overwrite in place, else append. -/
def dictInsert (m : List (String × String)) (k v : String) : List (String × String) :=
  if dictHas m k then m.map (fun p => if p.1 == k then (k, v) else p) else m ++ [(k, v)]

/-! ## Skill extraction — `ResumeParser` (resumeparser.py) -/

/-- The fallback skill catalog of `_load_skill_database` (resumeparser.py:596–604);
the repository ships no `skills.json` next to the service, so this list is the
catalog the parser actually uses ("Docker" is listed twice in the source). -/
def skill_database : List String :=
  ["Python", "JavaScript", "TypeScript", "React", "Node.js", "FastAPI",
   "Django", "Flask", "SQL", "PostgreSQL", "MySQL", "MongoDB",
   "AWS", "Azure", "GCP", "Docker", "Kubernetes", "Terraform",
   "Git", "CI/CD", "Jenkins", "CircleCI", "Data Science", "Machine Learning",
   "Pandas", "NumPy", "scikit-learn", "PyTorch", "TensorFlow", "NLP",
   "Docker", "Redis", "Kafka", "GraphQL", "REST", "HTML", "CSS"]

/-- The `builtin_synonyms` table of `_build_skill_map` (resumeparser.py:161–173). -/
def builtin_synonyms : List (String × String) :=
  [("py", "Python"), ("python3", "Python"), ("python2", "Python"),
   ("js", "JavaScript"), ("tsx", "TypeScript"), ("ts", "TypeScript"),
   ("tf", "TensorFlow"), ("nlp", "NLP"), ("cv", "OpenCV"),
   ("dockercompose", "Docker Compose"), ("k8s", "Kubernetes")]

/-- One iteration of `_build_skill_map`'s canonical loop (resumeparser.py:176–192):
index the normalized canonical name, then each of its words if not yet present. -/
def addCanonEntry (m : List (String × String)) (canon : String) : List (String × String) :=
  let norm := pyNormalize canon
  let m1 := if norm ≠ "" then dictInsert m norm canon else m
  (pyWords norm).foldl
    (fun acc part => if part ≠ "" && !dictHas acc part then acc ++ [(part, canon)] else acc) m1

/-- The alias-to-canonical map built by `_build_skill_map` (resumeparser.py:149–198). -/
def skill_map : List (String × String) :=
  builtin_synonyms.foldl (fun acc p => dictInsert acc (pyNormalize p.1) p.2)
    (skill_database.foldl addCanonEntry [])

/-- The n-gram `(i, n)` starting at word `i` with `n` words, joined by spaces. -/
def ngramAt (words : List String) (i n : ℕ) : String := joinWith " " ((words.drop i).take n)

/-- The n-gram scan of `extract_skills` (resumeparser.py:125–135): n from 1 to 4,
start positions in Python's `range(len(words) - n + 1)`, collecting canonical
names first-occurrence-deduplicated. -/
def ngramFold (words : List String) : List String :=
  (List.range 4).foldl (fun found k =>
    let n := k + 1
    (List.range (words.length + 1 - n)).foldl (fun fd i =>
      let ng := ngramAt words i n
      if ng = "" then fd
      else
        match dictFind skill_map ng with
        | some canon => if fd.contains canon then fd else fd ++ [canon]
        | none => fd) found) []

/-- Embeds `ResumeParser.extract_skills` (resumeparser.py:111–147): n-gram lookups
against the alias map, then direct normalized-substring matches of catalog names. -/
def extract_skills (text : String) : List String :=
  if text = "" then []
  else
    let norm_text := pyNormalize text
    let words := pyWords norm_text
    let found := ngramFold words
    skill_database.foldl (fun fd canonical =>
      let norm_canon := pyNormalize canonical
      if norm_canon ≠ "" && strContains norm_text norm_canon && !fd.contains canonical then
        fd ++ [canonical]
      else fd) found

/-! ## Work experience and education extraction — `ResumeParser` -/

/-- A work-experience entry as produced by the live block of `extract_experience`
(resumeparser.py:248–252): all three fields are non-optional strings there. -/
structure ExpEntry where
  title : String
  company : String
  dates : String
deriving DecidableEq

/-- An education entry as produced by the live block of `extract_education`
(resumeparser.py:396–400): `dates` stays `None` when the institution line has no comma. -/
structure EduEntry where
  degree : String
  institution : String
  dates : Option String
deriving DecidableEq

/-- Test for `re.match(r"^(?:19|20)\d{2}[-–](?:19|20)\d{2}", line)`
(resumeparser.py:243): a prefix match, trailing characters allowed. -/
def isDateLine (s : String) : Bool :=
  match s.data with
  | a :: b :: c :: d :: e :: f :: g :: h :: i :: _ =>
    ((a = '1' && b = '9') || (a = '2' && b = '0')) && c.isDigit && d.isDigit &&
      (e = '-' || e = '–') && ((f = '1' && g = '9') || (f = '2' && g = '0')) &&
      h.isDigit && i.isDigit
  | _ => false

/-- Worker for `splitOnceStr`: find the first occurrence of the separator. -/
def splitOnceAux (sep : List Char) (acc : List Char) : List Char → Option (List Char × List Char)
  | [] => none
  | c :: t =>
    if sep.isPrefixOf (c :: t) then some (acc.reverse, (c :: t).drop sep.length)
    else splitOnceAux sep (c :: acc) t

/-- Python's `s.split(sep, 1)` when the separator occurs (two pieces), `none` when
it does not (Python would return a one-element list, making two-variable
unpacking raise `ValueError`). -/
def splitOnceStr (s sep : String) : Option (String × String) :=
  (splitOnceAux sep.data [] s.data).map (fun p => (String.mk p.1, String.mk p.2))

/-- The role keywords checked by the experience scanner (resumeparser.py:238). -/
def jobWords : List String := ["developer", "engineer", "manager"]

/-- Scanner state of the live `extract_experience` loop (resumeparser.py:227–231). -/
structure ExpScanState where
  inExp : Bool
  title : Option String
  company : Option String
  dates : Option String
  acc : List ExpEntry

/-- One line of the live `extract_experience` loop (resumeparser.py:232–253).
The `line.split(" at ", 1)` two-variable unpacking raises `ValueError` when
`"at"` occurs in the line (e.g. inside a word) but `" at "` does not; that
exception is modelled as the `Except.error` case. -/
def expStep (st : ExpScanState) (line : String) : Except String ExpScanState :=
  if strContains line "Work Experience" then Except.ok { st with inExp := true }
  else if st.inExp && line ≠ "" then
    if strContains line "at" && jobWords.any (fun j => strContains (strToLower line) j) then
      match splitOnceStr line " at " with
      | some tc => Except.ok { st with title := some (strTrim tc.1), company := some (strTrim tc.2) }
      | none => Except.error "not enough values to unpack (expected 2, got 1)"
    else if isDateLine line then
      let st1 := { st with dates := some (strTrim line) }
      if truthyS st1.title && truthyS st1.company && truthyS st1.dates then
        Except.ok { st1 with
          acc := st1.acc ++ [⟨st1.title.getD "", st1.company.getD "", st1.dates.getD ""⟩],
          title := none, company := none, dates := none }
      else Except.ok st1
    else Except.ok st
  else Except.ok st

/-- Fold `expStep` over the lines, propagating the `ValueError` case. -/
def expFold (st : ExpScanState) : List String → Except String ExpScanState
  | [] => Except.ok st
  | l :: ls =>
    match expStep st l with
    | Except.ok st1 => expFold st1 ls
    | Except.error e => Except.error e

/-- Embeds the live block of `ResumeParser.extract_experience`
(resumeparser.py:221–255).  The dedup-and-cap block at lines 358–367 sits after
the `return` at line 255 and is unreachable, so it is not part of the embedding. -/
def extract_experience (text : String) : Except String (List ExpEntry) :=
  match expFold ⟨false, none, none, none, []⟩ (cleanLines text) with
  | Except.ok st => Except.ok st.acc
  | Except.error e => Except.error e

/-- Scanner state of the live `extract_education` loop (resumeparser.py:375–378). -/
structure EduScanState where
  inEdu : Bool
  degree : Option String
  institution : Option String
  dates : Option String
  acc : List EduEntry

/-- Python's `line.split(",")` (single-character separator, keeping empties). -/
def splitCommaAux (cur : List Char) : List Char → List String
  | [] => [String.mk cur.reverse]
  | c :: t =>
    if c = ',' then String.mk cur.reverse :: splitCommaAux [] t
    else splitCommaAux (c :: cur) t

/-- Python's `line.split(",")`. -/
def splitComma (s : String) : List String := splitCommaAux [] s.data

/-- One line of the live `extract_education` loop (resumeparser.py:380–401). -/
def eduStep (st : EduScanState) (line : String) : EduScanState :=
  if strContains line "Education" then { st with inEdu := true }
  else if st.inEdu && line ≠ "" then
    if strContains line "BS" || strContains line "BA" || strContains line "Computer Science" then
      { st with degree := some line }
    else if strContains line "University" || strContains line "," then
      let parts := splitComma line
      let st1 := { st with institution := some (strTrim (parts.headD "")) }
      let st2 :=
        match parts with
        | _ :: p2 :: _ => { st1 with dates := some (strTrim p2) }
        | _ => st1
      if truthyS st2.degree && truthyS st2.institution then
        { st2 with
          acc := st2.acc ++ [⟨st2.degree.getD "", st2.institution.getD "", st2.dates⟩],
          degree := none, institution := none, dates := none }
      else st2
    else st
  else st

/-- Embeds the live block of `ResumeParser.extract_education`
(resumeparser.py:369–403); the rewritten variants after the `return` at line 403
are unreachable. -/
def extract_education (text : String) : List EduEntry :=
  ((cleanLines text).foldl eduStep ⟨false, none, none, none, []⟩).acc

/-! ## Regex scanners for email, phone and experience years — `ResumeParser`.
Each scanner implements the specific pattern's backtracking behaviour directly;
greedy quantifier steps that can never backtrack (because the following literal
is excluded from the preceding character class) are taken as maximal runs. -/

/-- Characters of the email local part class `[A-Za-z0-9._%+-]`. -/
def isLocalChar (c : Char) : Bool :=
  c.isAlpha || c.isDigit || c = '.' || c = '_' || c = '%' || c = '+' || c = '-'

/-- Characters of the email domain class `[A-Za-z0-9.-]`. -/
def isDomChar (c : Char) : Bool := c.isAlpha || c.isDigit || c = '.' || c = '-'

/-- Match `p` literally at the head of `l`, returning the remainder. -/
def stripPre (p : String) (l : List Char) : Option (List Char) :=
  if p.data.isPrefixOf l then some (l.drop p.data.length) else none

/-- Backtracking over the domain `[A-Za-z0-9.-]+\.[A-Za-z]{2,}`: try the dot
split points right to left (the greedy `+` gives back as little as possible);
candidate `p + 1` is the index of the dot, keeping the part before it non-empty. -/
def emailDomSplitAux (dom : List Char) : ℕ → Option (List Char)
  | 0 => none
  | p + 1 =>
    if dom.getD (p + 1) 'x' = '.' then
      let s := (dom.drop (p + 2)).takeWhile Char.isAlpha
      if 2 ≤ s.length then some (dom.take (p + 1) ++ '.' :: s)
      else emailDomSplitAux dom p
    else emailDomSplitAux dom p

/-- Try the email regex `[A-Za-z0-9._%+-]+@[A-Za-z0-9.-]+\.[A-Za-z]{2,}`
(resumeparser.py:102) anchored at the start of `l`. -/
def tryEmailAt (l : List Char) : Option String :=
  let lp := l.takeWhile isLocalChar
  if lp.isEmpty then none
  else
    match l.drop lp.length with
    | '@' :: r =>
      let dom := r.takeWhile isDomChar
      (emailDomSplitAux dom dom.length).map (fun m => String.mk (lp ++ '@' :: m))
    | _ => none

/-- Left-to-right scan for the first email match, fuelled by the text length. -/
def scanEmailAux : ℕ → List Char → Option String
  | 0, _ => none
  | _, [] => none
  | fuel + 1, c :: t =>
    match tryEmailAt (c :: t) with
    | some m => some m
    | none => scanEmailAux fuel t

/-- Embeds `ResumeParser.extract_email` (resumeparser.py:101–104): first match wins. -/
def extract_email (text : String) : Option String := scanEmailAux text.data.length text.data

/-- Characters of the phone middle class `[\d\s().-]`. -/
def isPhoneChar (c : Char) : Bool :=
  c.isDigit || c.isWhitespace || c = '(' || c = ')' || c = '.' || c = '-'

/-- Backtracking for `[\d\s().-]{7,}\d`: the greedy `{7,}` gives back until the
next character is a digit, so take the largest index `j ≥ 7` inside the run
holding a digit; candidates are tried from `j` downwards. -/
def phoneFindIdx (run : List Char) : ℕ → Option ℕ
  | 0 => none
  | j + 1 =>
    if 7 ≤ j + 1 && (run.getD (j + 1) 'x').isDigit then some (j + 1)
    else phoneFindIdx run j

/-- Shared tail of the phone matcher after the optional `+` and first digit. -/
def phoneCore (pre : List Char) (t : List Char) : Option String :=
  let run := t.takeWhile isPhoneChar
  (phoneFindIdx run run.length).map (fun j => String.mk (pre ++ run.take (j + 1)))

/-- Try the phone regex `\+?\d[\d\s().-]{7,}\d` (resumeparser.py:107) at the start. -/
def tryPhoneAt : List Char → Option String
  | '+' :: rest =>
    (match rest with
     | d :: t => if d.isDigit then phoneCore ['+', d] t else none
     | [] => none)
  | d :: t => if d.isDigit then phoneCore [d] t else none
  | [] => none

/-- Left-to-right scan for the first phone match. -/
def scanPhoneAux : ℕ → List Char → Option String
  | 0, _ => none
  | _, [] => none
  | fuel + 1, c :: t =>
    match tryPhoneAt (c :: t) with
    | some m => some m
    | none => scanPhoneAux fuel t

/-- Embeds `ResumeParser.extract_phone` (resumeparser.py:106–109). -/
def extract_phone (text : String) : Option String := scanPhoneAux text.data.length text.data

/-- Numeric value of a digit run. -/
def digitsToNat (ds : List Char) : ℕ := ds.foldl (fun n c => n * 10 + (c.toNat - '0'.toNat)) 0

/-- The `of\s+experience` branch of the years-phrase tail. -/
def yearsOfBranch (r : List Char) : Option (List Char) :=
  match stripPre "of" r with
  | some r1 =>
    (match r1 with
     | c :: t =>
       if c.isWhitespace then stripPre "experience" ((c :: t).dropWhile Char.isWhitespace)
       else none
     | [] => none)
  | none => none

/-- Tail `\s+(?:of\s+)?experience` of the years phrase; regex backtracking first
tries the `of\s+` branch and otherwise requires `experience` directly. -/
def yearsTail (l : List Char) : Option (List Char) :=
  match l with
  | [] => none
  | c :: t =>
    if c.isWhitespace then
      let r := (c :: t).dropWhile Char.isWhitespace
      (yearsOfBranch r).orElse (fun _ => stripPre "experience" r)
    else none

/-- Try `(\d+)\s*(?:\+)?\s*years?\s+(?:of\s+)?experience` (resumeparser.py:495)
at the start of `l`, returning the captured number and the rest of the input. -/
def tryYearsAt (l : List Char) : Option (ℕ × List Char) :=
  let ds := l.takeWhile Char.isDigit
  if ds.isEmpty then none
  else
    let r1 := (l.drop ds.length).dropWhile Char.isWhitespace
    let r2 :=
      match r1 with
      | '+' :: t => t.dropWhile Char.isWhitespace
      | _ => r1
    match stripPre "year" r2 with
    | none => none
    | some r3 =>
      let tailRes :=
        match r3 with
        | 's' :: t => (yearsTail t).orElse (fun _ => yearsTail r3)
        | _ => yearsTail r3
      tailRes.map (fun rest => (digitsToNat ds, rest))

/-- Non-overlapping left-to-right `findall` of the years phrase. -/
def scanYearsAux : ℕ → List Char → List ℕ
  | 0, _ => []
  | _, [] => []
  | fuel + 1, c :: t =>
    match tryYearsAt (c :: t) with
    | some nr => nr.1 :: scanYearsAux fuel nr.2
    | none => scanYearsAux fuel t

/-- Try the fallback range regex `(\d{4})\s*[-–]\s*(\d{4})` (resumeparser.py:501). -/
def tryRangeAt (l : List Char) : Option (ℤ × ℤ × List Char) :=
  let d1 := l.take 4
  if d1.length = 4 && d1.all Char.isDigit then
    match (l.drop 4).dropWhile Char.isWhitespace with
    | c :: t =>
      if c = '-' || c = '–' then
        let r2 := t.dropWhile Char.isWhitespace
        let d2 := r2.take 4
        if d2.length = 4 && d2.all Char.isDigit then
          some ((digitsToNat d1 : ℤ), (digitsToNat d2 : ℤ), r2.drop 4)
        else none
      else none
    | [] => none
  else none

/-- Non-overlapping left-to-right `findall` of year ranges. -/
def scanRangesAux : ℕ → List Char → List (ℤ × ℤ)
  | 0, _ => []
  | _, [] => []
  | fuel + 1, c :: t =>
    match tryRangeAt (c :: t) with
    | some r => (r.1, r.2.1) :: scanRangesAux fuel r.2.2
    | none => scanRangesAux fuel t

/-- Embeds `ResumeParser.calculate_experience_years` (resumeparser.py:494–508):
maximum of explicit "N years experience" phrases on the lowercased text, else
the sum of `end - start` over all year ranges. -/
def calculate_experience_years (text : String) : ℤ :=
  let low := (strToLower text).data
  match scanYearsAux low.length low with
  | [] => (scanRangesAux text.data.length text.data).foldl (fun acc p => acc + (p.2 - p.1)) 0
  | m :: rest => ((m :: rest).foldl Nat.max 0 : ℕ)

/-! ## Document extraction and the top-level parse — `ResumeParser.parse_resume` -/

/-- Observable behaviour of the two PDF libraries on one file, as seen by
`extract_text_from_pdf`: whether `PdfReader` construction and page iteration
succeed, the encryption flag, the per-page texts (`page.extract_text() or ""`),
and the same for the `pdfplumber` fallback (`plumberAvailable` models the
optional import at resumeparser.py:10–13). -/
structure PdfFile where
  readerOk : Bool
  is_encrypted : Bool
  pypdfPages : List String
  plumberAvailable : Bool
  plumberOk : Bool
  plumberPages : List String
deriving DecidableEq

/-- Observable behaviour of `python-docx` on one file: whether `Document(...)`
succeeds and the paragraph texts. -/
structure DocxFile where
  openOk : Bool
  paragraphs : List String
deriving DecidableEq

/-- One uploaded file, as each extraction library would see it. -/
structure RFile where
  pdf : PdfFile
  docx : DocxFile
deriving DecidableEq

/-- Concatenation `text += page_text` over the pages. -/
def joinPages (ps : List String) : String := String.join ps

/-- Embeds `ResumeParser.extract_text_from_pdf` (resumeparser.py:47–91):
fail fast on encryption, fall back to pdfplumber on a pypdf exception or empty
pypdf text, and reject a final empty text.  `Except.error` models the raised
`FileParseError` messages. -/
def extract_text_from_pdf (f : PdfFile) : Except String String :=
  if f.readerOk then
    if f.is_encrypted then Except.error "PDF is encrypted or password-protected"
    else
      let text := joinPages f.pypdfPages
      if text = "" && f.plumberAvailable then
        if f.plumberOk then
          let text2 := joinPages f.plumberPages
          if text2 = "" then Except.error "PDF contains no extractable text"
          else Except.ok text2
        else Except.error "Unable to extract text from PDF"
      else if text = "" then Except.error "PDF contains no extractable text"
      else Except.ok text
  else
    if f.plumberAvailable then
      if f.plumberOk then
        let text := joinPages f.plumberPages
        if text = "" then Except.error "PDF contains no extractable text"
        else Except.ok text
      else Except.error "Unable to extract text from PDF"
    else Except.error "Unable to extract text from PDF"

/-- Embeds `ResumeParser.extract_text_from_docx` (resumeparser.py:93–99):
join the paragraph texts with newlines; any exception becomes a `FileParseError`.
Note there is no emptiness check on the joined text. -/
def extract_text_from_docx (f : DocxFile) : Except String String :=
  if f.openOk then Except.ok (joinWith "\n" f.paragraphs)
  else Except.error "Unable to extract text from DOCX"

/-- The file-type dispatch at the top of `parse_resume` (resumeparser.py:513–519):
PDF by exact mimetype; DOCX by mimetype suffix or a case-insensitive `.docx`
path suffix; otherwise an unsupported-type `FileParseError`. -/
def extract_text_dispatch (file : RFile) (filepath mimetype : String) : Except String String :=
  if mimetype = "application/pdf" then extract_text_from_pdf file.pdf
  else if strEndsWith mimetype "wordprocessingml.document" ||
      strEndsWith (strToLower filepath) ".docx" then extract_text_from_docx file.docx
  else Except.error ("Unsupported file type: " ++ mimetype)

/-- An entity produced by the optional spaCy model, with its label. -/
structure NerEnt where
  label : String
  text : String

/-- The optional spaCy collaborator: when present, maps a text to its entities. -/
def Ner : Type := String → List NerEnt

/-- Embeds the `name` result of `_extract_with_spacy` (resumeparser.py:200–219):
the first entity labelled PERSON, or `None` when the model is unavailable
(`parse_resume` only consumes the name). -/
def nerName (nlp : Option Ner) (text : String) : Option String :=
  match nlp with
  | none => none
  | some f => ((f text).find? (fun e => e.label == "PERSON")).map (fun e => e.text)

/-- The `personal_info` dict assembled at resumeparser.py:525–530. -/
structure PersonalInfo where
  name : Option String
  email : Option String
  phone : Option String
  location : Option String
deriving DecidableEq

/-- The dict returned by `parse_resume` (resumeparser.py:545–554 and the error
records at 560–569, 572–581), matching the `ParseResumeResponse` schema. -/
structure ParsedData where
  raw_text : Option String
  personal_info : Option PersonalInfo
  skills : List String
  experience : List ExpEntry
  education : List EduEntry
  experience_years : Option ℤ
  confidence_score : ℚ
  error : Option String
deriving DecidableEq

/-- The record returned for a caught `FileParseError` or unexpected exception:
only `error` is populated. -/
def errorRecord (msg : String) : ParsedData :=
  { raw_text := none, personal_info := none, skills := [], experience := [],
    education := [], experience_years := none, confidence_score := 0, error := some msg }

/-- The completeness score at resumeparser.py:536–543: fraction of the four
checked fields (name, email, experience entries, education entries) that are
truthy, over the length of that checklist. -/
def confidenceOf (name email : Option String) (exp : List ExpEntry) (edu : List EduEntry) : ℚ :=
  let required : List Bool := [truthyS name, truthyS email, !exp.isEmpty, !edu.isEmpty]
  Rat.divInt (required.count true : ℤ) (required.length : ℤ)

/-- The success branch of `parse_resume` (resumeparser.py:521–556), after text
extraction succeeded; the `ValueError` that `extract_experience` can raise is
caught by the generic handler at lines 570–581. -/
def parse_success (nlp : Option Ner) (text : String) : ParsedData :=
  match extract_experience text with
  | Except.error e => errorRecord ("Unexpected error: " ++ e)
  | Except.ok experience_entries =>
    let name := nerName nlp text
    let email := extract_email text
    let education_entries := extract_education text
    { raw_text := some text
      personal_info := some ⟨name, email, extract_phone text, none⟩
      skills := extract_skills text
      experience := experience_entries
      education := education_entries
      experience_years := some (calculate_experience_years text)
      confidence_score := pyRound2 (confidenceOf name email experience_entries education_entries)
      error := none }

/-- Embeds `ResumeParser.parse_resume` (resumeparser.py:510–581): total — every
raised `FileParseError` or unexpected exception is converted into a record with
only `error` set. -/
def parse_resume (nlp : Option Ner) (file : RFile) (filepath mimetype : String) : ParsedData :=
  match extract_text_dispatch file filepath mimetype with
  | Except.error e => errorRecord e
  | Except.ok text => parse_success nlp text

/-! ## Match scoring — `backend/app/api/v1/matching.py` -/

/-- Result record assembled by the `/match` endpoint (schema `MatchResult`). -/
structure MatchResult where
  skill_match_score : ℚ
  experience_score : ℚ
  education_score : ℚ
  overall_score : ℚ
  reasoning : String
deriving DecidableEq

/-- Embeds `calculate_skill_match` (matching.py:66–87): fraction of the resume's
skills occurring case-insensitively as substrings of the requirements text. -/
def calculate_skill_match (job_requirements : String) (resume_skills : List String) : ℚ :=
  if resume_skills.isEmpty then 0
  else
    let requirements_lower := strToLower job_requirements
    let skills_lower := resume_skills.map strToLower
    let nMatches := skills_lower.countP (fun s => strContains requirements_lower s)
    pyRound2 (qMin 1 (Rat.divInt (nMatches : ℤ) ((max skills_lower.length 1 : ℕ) : ℤ)))

/-- Embeds `calculate_experience_score` (matching.py:90–111).  Python's
`if not resume_experience_years` treats both `None` and `0` as unspecified. -/
def calculate_experience_score (job_requirements : String) (resume_experience_years : Option ℤ) : ℚ :=
  match resume_experience_years with
  | none => mkRat 1 2
  | some y =>
    if y = 0 then mkRat 1 2
    else if strContains (strToLower job_requirements) "senior" then
      pyRound2 (qMin 1 (Rat.divInt y 5))
    else if strContains (strToLower job_requirements) "junior" then
      pyRound2 (if y ≤ 2 then 1 else mkRat 7 10)
    else
      pyRound2 (qMin 1 (Rat.divInt y 3))

/-- Embeds `calculate_education_score` (matching.py:114–135). -/
def calculate_education_score (resume_education_level : Option String) : ℚ :=
  match resume_education_level with
  | none => mkRat 1 2
  | some lvl =>
    if lvl = "" then mkRat 1 2
    else
      let e := strToLower lvl
      if strContains e "phd" || strContains e "doctorate" then 1
      else if strContains e "master" then mkRat 9 10
      else if strContains e "bachelor" || strContains e "b.s." || strContains e "b.a." then mkRat 8 10
      else if strContains e "associate" || strContains e "diploma" then mkRat 7 10
      else mkRat 1 2

/-- Embeds `calculate_overall_score` (matching.py:138–152): weighted average,
50% skills, 30% experience, 20% education, rounded to 2 decimals. -/
def calculate_overall_score (skill_match experience_score education_score : ℚ) : ℚ :=
  pyRound2 (qAdd (qAdd (qMul skill_match (mkRat 1 2)) (qMul experience_score (mkRat 3 10)))
    (qMul education_score (mkRat 1 5)))

/-- Assembly of the stored/returned match record by the `/match` endpoint
(matching.py:244–259 and 267–280): the overall score is derived by
`calculate_overall_score` from the same three sub-scores stored in the record. -/
def buildMatchResult (skill experience education : ℚ) (reasoning : String) : MatchResult :=
  { skill_match_score := skill
    experience_score := experience
    education_score := education
    overall_score := calculate_overall_score skill experience education
    reasoning := reasoning }

/-! ## Skill standardization — `SkillsDatabase` (skills_service.py).
The catalog (`skills.json`) and the `difflib.SequenceMatcher` similarity score
are passed as parameters: the repository ships no `skills.json` for this service
(its loader then falls back to an empty list), and the similarity is library code. -/

/-- The constructor's `{s.lower(): s for s in self.skills}` (skills_service.py:9). -/
def skillsLowerDict (skills : List String) : List (String × String) :=
  skills.foldl (fun m s => dictInsert m (strToLower s) s) []

/-- The fuzzy-match loop of `normalize_skill` (skills_service.py:51–58): fold
over the lowercase dict tracking the strictly best similarity and its catalog name. -/
def bestFuzzy (skills_lower : List (String × String)) (g : String → ℚ) : ℚ × Option String :=
  skills_lower.foldl
    (fun (acc : ℚ × Option String) kv =>
      if Rat.blt acc.1 (g kv.1) then (g kv.1, some kv.2) else acc)
    (0, none)

/-- Embeds `SkillsDatabase.normalize_skill` (skills_service.py:39–65): exact
lowercase match, else the best strictly-improving fuzzy match kept only when its
similarity exceeds 0.8, else the original string. -/
def normalize_skill (skills : List String) (simFn : String → String → ℚ) (skill : String) :
    String :=
  if skill = "" then ""
  else
    let skills_lower := skillsLowerDict skills
    let skill_lower := strTrim (strToLower skill)
    match dictFind skills_lower skill_lower with
    | some v => v
    | none =>
      let best := bestFuzzy skills_lower (simFn skill_lower)
      if Rat.blt (mkRat 4 5) best.1 then best.2.getD skill else skill

/-- Python set insertion, modelled as first-occurrence accumulation (the final
`sorted` makes the set's iteration order irrelevant). -/
def setAdd (l : List String) (x : String) : List String := if l.contains x then l else l ++ [x]

/-- Lexicographic-by-code-point comparison, Python's `<=` on strings. -/
def listLeB : List Char → List Char → Bool
  | [], _ => true
  | _ :: _, [] => false
  | a :: as, b :: bs => if a < b then true else if b < a then false else listLeB as bs

/-- String comparison used by `sorted`. -/
def strLeB (a b : String) : Bool := listLeB a.data b.data

/-- Insert into a sorted list. -/
def insertSorted (x : String) : List String → List String
  | [] => [x]
  | y :: t => if strLeB x y then x :: y :: t else y :: insertSorted x t

/-- Python's `sorted` on a list of strings (insertion sort; the orders agree). -/
def sortStrings : List String → List String
  | [] => []
  | x :: t => insertSorted x (sortStrings t)

/-- Embeds `SkillsDatabase.standardize_skills` (skills_service.py:67–78):
normalize each input, drop falsy results, deduplicate as a set, return sorted. -/
def standardize_skills (skills : List String) (simFn : String → String → ℚ)
    (inputs : List String) : List String :=
  if inputs.isEmpty then []
  else
    sortStrings (inputs.foldl
      (fun acc skill =>
        let normalized := normalize_skill skills simFn skill
        if normalized ≠ "" then setAdd acc normalized else acc)
      [])

/-! ## Claim-side formulas, written from the claims' own wording (used to compare
the embedded code against what the specification asserts). -/

/-- Claim C4's wording of "occurs case-insensitively as a substring within the
job's requirements text". -/
def skillOccurs (req skill : String) : Bool := strContains (strToLower req) (strToLower skill)

/-- Claim C4 as stated: the fraction of matching skills capped at 1.0 (no
rounding), 0.0 for an empty skill list. -/
def skillFractionClaim (req : String) (skills : List String) : ℚ :=
  if skills = [] then 0
  else qMin 1 (Rat.divInt (skills.countP (fun s => skillOccurs req s) : ℤ) (skills.length : ℤ))

/-- Claim C4 amended: the same fraction, rounded to 2 decimals as the code does. -/
def skillFractionAmended (req : String) (skills : List String) : ℚ :=
  if skills = [] then 0
  else
    pyRound2
      (qMin 1 (Rat.divInt (skills.countP (fun s => skillOccurs req s) : ℤ) (skills.length : ℤ)))

/-- Claim C5 as stated: the tiered heuristic for every non-null years value,
with no rounding and no special case for zero years. -/
def experienceScoreClaim (req : String) (years : Option ℤ) : ℚ :=
  match years with
  | none => mkRat 1 2
  | some y =>
    if strContains (strToLower req) "senior" then qMin 1 (Rat.divInt y 5)
    else if strContains (strToLower req) "junior" then (if y ≤ 2 then 1 else mkRat 7 10)
    else qMin 1 (Rat.divInt y 3)

/-- The name field of a parsed record, through the optional `personal_info`. -/
def piName (r : ParsedData) : Option String := r.personal_info.bind (fun pi => pi.name)

/-- The email field of a parsed record, through the optional `personal_info`. -/
def piEmail (r : ParsedData) : Option String := r.personal_info.bind (fun pi => pi.email)

/-- Claim C3's six-item checklist confidence: raw text present, skills non-empty,
experience non-empty, education non-empty, name present, email present, out of 6,
rounded to 2 decimals. -/
def sixItemConfidence (r : ParsedData) : ℚ :=
  pyRound2 (Rat.divInt
    (((if truthyS r.raw_text then 1 else 0) + (if r.skills.isEmpty then 0 else 1) +
      (if r.experience.isEmpty then 0 else 1) + (if r.education.isEmpty then 0 else 1) +
      (if truthyS (piName r) then 1 else 0) + (if truthyS (piEmail r) then 1 else 0) : ℤ))
    6)

/-- Claim C3 amended, as a formula over the returned record's own fields: the
four-item checklist (name, email, experience, education) out of 4, rounded. -/
def fourItemConfidence (r : ParsedData) : ℚ :=
  pyRound2 (Rat.divInt
    (((if truthyS (piName r) then 1 else 0) + (if truthyS (piEmail r) then 1 else 0) +
      (if r.experience.isEmpty then 0 else 1) + (if r.education.isEmpty then 0 else 1) : ℤ))
    4)

/-- Claim C6's "all other fields except `raw_text` are empty/null" for an
error-carrying record. -/
def otherFieldsEmpty (r : ParsedData) : Prop :=
  r.personal_info = none ∧ r.skills = [] ∧ r.experience = [] ∧ r.education = [] ∧
    r.experience_years = none ∧ r.confidence_score = 0

/-- A resume text with eleven identical experience entries (claim C7's failing
input): the experience extractor's live loop neither deduplicates nor caps. -/
def elevenEntriesText : String :=
  "Work Experience\n" ++ joinWith "" (List.replicate 11 "Developer at Acme\n2019-2020\n")

/-- The repeated experience entry of `elevenEntriesText`. -/
def devAcmeEntry : ExpEntry := ⟨"Developer", "Acme", "2019-2020"⟩

/-- The alias/typo example text of claim C8 and of
`test_skill_aliases_and_typos_extraction` (tests/test_enhanced_parser.py:175–184). -/
def aliasTypoText : String := "Experienced in Pyton, js, ReactJS, Kubernates"

end HireAssist

deriving instance DecidableEq for Except

namespace HireAssist

/-! ## Bridge lemmas: the kernel-computable arithmetic equals the standard one -/

theorem qMul_eq (a b : ℚ) : qMul a b = a * b := by
  rw [qMul, Rat.divInt_eq_div]
  push_cast
  rw [← div_mul_div_comm, Rat.num_div_den, Rat.num_div_den]

theorem qAdd_eq (a b : ℚ) : qAdd a b = a + b := by
  have ha : ((a.den : ℚ)) ≠ 0 := by exact_mod_cast a.den_ne_zero
  have hb : ((b.den : ℚ)) ≠ 0 := by exact_mod_cast b.den_ne_zero
  rw [qAdd, Rat.divInt_eq_div]
  push_cast
  conv_rhs => rw [← Rat.num_div_den a, ← Rat.num_div_den b]
  field_simp

theorem qSub_eq (a b : ℚ) : qSub a b = a - b := by
  have ha : ((a.den : ℚ)) ≠ 0 := by exact_mod_cast a.den_ne_zero
  have hb : ((b.den : ℚ)) ≠ 0 := by exact_mod_cast b.den_ne_zero
  rw [qSub, Rat.divInt_eq_div]
  push_cast
  conv_rhs => rw [← Rat.num_div_den a, ← Rat.num_div_den b]
  field_simp
  ring

theorem qDiv_eq (a b : ℚ) : qDiv a b = a / b := by
  rw [qDiv, Rat.divInt_eq_div]
  push_cast
  conv_rhs => rw [← Rat.num_div_den a, ← Rat.num_div_den b]
  rw [div_div_eq_mul_div, div_mul_eq_mul_div, div_div]

theorem blt_iff_lt (a b : ℚ) : Rat.blt a b = true ↔ a < b := Iff.rfl

theorem qMin_eq (a b : ℚ) : qMin a b = min a b := by
  rw [qMin]
  cases h : Rat.blt b a with
  | false =>
    have hna : ¬ (b < a) := fun hc => by simp [(blt_iff_lt b a).mpr hc] at h
    simp only [Bool.false_eq_true, if_false]
    rw [min_eq_left (not_lt.mp hna)]
  | true =>
    simp only [if_true]
    rw [min_eq_right (le_of_lt ((blt_iff_lt b a).mp h))]

/-! ## Case-analysis helpers for the parse pipeline -/

theorem parse_resume_of_dispatch_error (nlp : Option Ner) (file : RFile) (fp mt e : String)
    (h : extract_text_dispatch file fp mt = Except.error e) :
    parse_resume nlp file fp mt = errorRecord e := by
  unfold parse_resume
  rw [h]

theorem parse_resume_of_dispatch_ok (nlp : Option Ner) (file : RFile) (fp mt t : String)
    (h : extract_text_dispatch file fp mt = Except.ok t) :
    parse_resume nlp file fp mt = parse_success nlp t := by
  unfold parse_resume
  rw [h]

theorem parse_success_of_exp_error (nlp : Option Ner) (t e : String)
    (h : extract_experience t = Except.error e) :
    parse_success nlp t = errorRecord ("Unexpected error: " ++ e) := by
  unfold parse_success
  rw [h]

theorem parse_success_of_exp_ok (nlp : Option Ner) (t : String) (l : List ExpEntry)
    (h : extract_experience t = Except.ok l) :
    parse_success nlp t =
      { raw_text := some t
        personal_info := some ⟨nerName nlp t, extract_email t, extract_phone t, none⟩
        skills := extract_skills t
        experience := l
        education := extract_education t
        experience_years := some (calculate_experience_years t)
        confidence_score :=
          pyRound2 (confidenceOf (nerName nlp t) (extract_email t) l (extract_education t))
        error := none } := by
  unfold parse_success
  rw [h]

/-! ## Claim C1 -/

/-- Claim C1: for sub-scores in `[0,1]`, the overall score computed by
`calculate_overall_score` equals `round(0.5*skill + 0.3*experience +
0.2*education, 2)`, and the same equation relates the fields of every
`MatchResult` record the endpoint assembles. -/
theorem C1_overall_score_weighted_average (s e ed : ℚ)
    (hs0 : 0 ≤ s) (hs1 : s ≤ 1) (he0 : 0 ≤ e) (he1 : e ≤ 1) (hd0 : 0 ≤ ed) (hd1 : ed ≤ 1)
    (reasoning : String) :
    calculate_overall_score s e ed = pyRound2 (0.5 * s + 0.3 * e + 0.2 * ed) ∧
    (buildMatchResult s e ed reasoning).overall_score =
      pyRound2 (0.5 * (buildMatchResult s e ed reasoning).skill_match_score +
        0.3 * (buildMatchResult s e ed reasoning).experience_score +
        0.2 * (buildMatchResult s e ed reasoning).education_score) := by
  have key : calculate_overall_score s e ed = pyRound2 (0.5 * s + 0.3 * e + 0.2 * ed) := by
    rw [calculate_overall_score, qAdd_eq, qAdd_eq, qMul_eq, qMul_eq, qMul_eq]
    congr 1
    have h2 : (mkRat 1 2 : ℚ) = 0.5 := by norm_num [Rat.mkRat_eq_div]
    have h3 : (mkRat 3 10 : ℚ) = 0.3 := by norm_num [Rat.mkRat_eq_div]
    have h5 : (mkRat 1 5 : ℚ) = 0.2 := by norm_num [Rat.mkRat_eq_div]
    rw [h2, h3, h5]
    ring
  exact ⟨key, key⟩

/-- Witness for C1 at concrete sub-scores `0.5`, `0.5`, `0.5`. -/
theorem C1_overall_score_witness :
    calculate_overall_score (1/2 : ℚ) (1/2) (1/2) =
      pyRound2 (0.5 * (1/2 : ℚ) + 0.3 * (1/2) + 0.2 * (1/2)) :=
  (C1_overall_score_weighted_average (1/2) (1/2) (1/2) (by norm_num) (by norm_num)
    (by norm_num) (by norm_num) (by norm_num) (by norm_num) "r").1

/-! ## Claim C4 -/

/-- Counterexample to claim C4 as stated: with requirements `"python"` and
skills `["Python","Java","React"]` the code returns `round(1/3, 2) = 0.33`,
not the unrounded fraction `1/3` the claim asserts. -/
theorem C4_skill_fraction_counterexample :
    calculate_skill_match "python" ["Python", "Java", "React"] = mkRat 33 100 ∧
    skillFractionClaim "python" ["Python", "Java", "React"] = mkRat 1 3 ∧
    calculate_skill_match "python" ["Python", "Java", "React"] ≠
      skillFractionClaim "python" ["Python", "Java", "React"] := by
  refine ⟨by decide, by decide, by decide⟩

/-- Claim C4 amended: the skill match score equals the fraction of the
profile's skills occurring case-insensitively as substrings of the requirements
text, capped at 1.0 and rounded to 2 decimals, with 0.0 for an empty skill
list; on the claim's own example the score is exactly 3/5. -/
theorem C4_skill_match_rounded_fraction :
    (∀ (req : String) (skills : List String),
      calculate_skill_match req skills = skillFractionAmended req skills) ∧
    calculate_skill_match "Looking for Python and React with Docker experience"
      ["Python", "Java", "React", "AWS", "Docker"] = mkRat 3 5 := by
  constructor
  · intro req skills
    simp only [calculate_skill_match, skillFractionAmended]
    rcases skills with _ | ⟨a, l⟩
    · simp
    · rw [if_neg (by simp : ¬((a :: l : List String).isEmpty = true)),
        if_neg (by simp : ¬(a :: l = ([] : List String)))]
      rw [List.countP_map, List.length_map]
      have hlen : max (a :: l).length 1 = (a :: l).length :=
        Nat.max_eq_left (Nat.succ_le_of_lt (List.length_pos.mpr (by simp)))
      rw [hlen]
      have hfun : ((fun s => strContains (strToLower req) s) ∘ strToLower) =
          (fun s => skillOccurs req s) := rfl
      rw [hfun]
  · decide

/-! ## Claim C5 -/

/-- Counterexample to claim C5 as stated: for a non-null years value of `0`
(and requirements without "senior"/"junior") the claim demands
`min(1.0, 0/3) = 0.0`, but the code's `if not resume_experience_years` treats
`0` like `None` and returns the neutral `0.5`. -/
theorem C5_zero_years_counterexample :
    calculate_experience_score "" (some 0) = mkRat 1 2 ∧
    experienceScoreClaim "" (some 0) = 0 ∧
    calculate_experience_score "" (some 0) ≠ experienceScoreClaim "" (some 0) := by
  refine ⟨by decide, by decide, by decide⟩

/-- Claim C5 amended: for non-null, non-zero years the tiered heuristic holds
with results rounded to 2 decimals (the junior tier's values 1.0 and 0.7 are
exact); a missing years value or a zero years value yields the neutral 0.5. -/
theorem C5_experience_score_tiers (req : String) (y : ℤ) (hy : y ≠ 0) :
    (strContains (strToLower req) "senior" = true →
      calculate_experience_score req (some y) = pyRound2 (qMin 1 (Rat.divInt y 5))) ∧
    (strContains (strToLower req) "senior" = false →
      strContains (strToLower req) "junior" = true →
      calculate_experience_score req (some y) = (if y ≤ 2 then 1 else mkRat 7 10)) ∧
    (strContains (strToLower req) "senior" = false →
      strContains (strToLower req) "junior" = false →
      calculate_experience_score req (some y) = pyRound2 (qMin 1 (Rat.divInt y 3))) ∧
    calculate_experience_score req none = mkRat 1 2 ∧
    calculate_experience_score req (some 0) = mkRat 1 2 := by
  refine ⟨?_, ?_, ?_, rfl, by simp [calculate_experience_score]⟩
  · intro hsen
    rw [calculate_experience_score]
    simp [hy, hsen]
  · intro hsen hjun
    rw [calculate_experience_score]
    simp only [hy, hsen, hjun, if_false, if_true, Bool.false_eq_true, reduceCtorEq]
    rcases le_or_lt y 2 with h2 | h2
    · rw [if_pos h2]
      decide
    · rw [if_neg (not_le.mpr h2)]
      decide
  · intro hsen hjun
    rw [calculate_experience_score]
    simp [hy, hsen, hjun]

/-- Witness for C5 at requirements `"Senior engineer"` and 7 years. -/
theorem C5_experience_score_witness :
    calculate_experience_score "Senior engineer" (some 7) =
      pyRound2 (qMin 1 (Rat.divInt 7 5)) :=
  (C5_experience_score_tiers "Senior engineer" 7 (by decide)).1 (by decide)

/-! ## Claim C2 -/

/-- Claim C2: `parse_resume` is total (in the embedding, a function); whenever
text extraction fails its record carries the failure in `error` with
`raw_text = None`, and an encrypted PDF yields an error message containing
"encrypted". -/
theorem C2_parse_never_raises (nlp : Option Ner) (file : RFile) (filepath mimetype : String) :
    (∀ e, extract_text_dispatch file filepath mimetype = Except.error e →
      (parse_resume nlp file filepath mimetype).error = some e ∧
      (parse_resume nlp file filepath mimetype).raw_text = none) ∧
    (file.pdf.readerOk = true → file.pdf.is_encrypted = true → mimetype = "application/pdf" →
      ∃ m, (parse_resume nlp file filepath mimetype).error = some m ∧
        strContains m "encrypted" = true ∧
        (parse_resume nlp file filepath mimetype).raw_text = none) := by
  constructor
  · intro e he
    rw [parse_resume_of_dispatch_error nlp file filepath mimetype e he]
    exact ⟨rfl, rfl⟩
  · intro hro hen hmt
    have hdisp : extract_text_dispatch file filepath mimetype =
        Except.error "PDF is encrypted or password-protected" := by
      rw [extract_text_dispatch, if_pos hmt, extract_text_from_pdf, hro, hen]
      simp
    rw [parse_resume_of_dispatch_error nlp file filepath mimetype _ hdisp]
    exact ⟨"PDF is encrypted or password-protected", rfl, by decide, rfl⟩

/-- Witness for C2: a concrete encrypted PDF. -/
theorem C2_encrypted_witness :
    ∃ m,
      (parse_resume none ⟨⟨true, true, [], false, false, []⟩, ⟨true, []⟩⟩
        "cv.pdf" "application/pdf").error = some m ∧
      strContains m "encrypted" = true ∧
      (parse_resume none ⟨⟨true, true, [], false, false, []⟩, ⟨true, []⟩⟩
        "cv.pdf" "application/pdf").raw_text = none :=
  (C2_parse_never_raises none ⟨⟨true, true, [], false, false, []⟩, ⟨true, []⟩⟩
    "cv.pdf" "application/pdf").2 rfl rfl rfl

/-! ## Claim C3 -/

/-- Counterexample to claim C3: parsing the reachable document
`"Contact: john@example.com"` (DOCX, no spaCy model) succeeds with the code's
confidence `1/4` (one of the four checked fields present), while the claim's
six-item formula would give `round(2/6, 2) = 0.33`. -/
theorem C3_six_item_checklist_counterexample :
    (parse_resume none ⟨⟨true, false, ["x"], false, false, []⟩,
        ⟨true, ["Contact: john@example.com"]⟩⟩ "cv.docx"
        "application/vnd.openxmlformats-officedocument.wordprocessingml.document").error =
      none ∧
    (parse_resume none ⟨⟨true, false, ["x"], false, false, []⟩,
        ⟨true, ["Contact: john@example.com"]⟩⟩ "cv.docx"
        "application/vnd.openxmlformats-officedocument.wordprocessingml.document").confidence_score =
      mkRat 1 4 ∧
    sixItemConfidence (parse_resume none ⟨⟨true, false, ["x"], false, false, []⟩,
        ⟨true, ["Contact: john@example.com"]⟩⟩ "cv.docx"
        "application/vnd.openxmlformats-officedocument.wordprocessingml.document") =
      mkRat 33 100 ∧
    (parse_resume none ⟨⟨true, false, ["x"], false, false, []⟩,
        ⟨true, ["Contact: john@example.com"]⟩⟩ "cv.docx"
        "application/vnd.openxmlformats-officedocument.wordprocessingml.document").confidence_score ≠
      sixItemConfidence (parse_resume none ⟨⟨true, false, ["x"], false, false, []⟩,
        ⟨true, ["Contact: john@example.com"]⟩⟩ "cv.docx"
        "application/vnd.openxmlformats-officedocument.wordprocessingml.document") := by
  exact ⟨by decide, by decide, by decide, by decide⟩

/-- The code's confidence expression, rewritten as the explicit four 0/1 terms. -/
theorem confidenceOf_eq (name email : Option String) (exp : List ExpEntry) (edu : List EduEntry) :
    confidenceOf name email exp edu =
      Rat.divInt
        (((if truthyS name then 1 else 0) + (if truthyS email then 1 else 0) +
          (if exp.isEmpty then 0 else 1) + (if edu.isEmpty then 0 else 1) : ℤ)) 4 := by
  cases h1 : truthyS name <;> cases h2 : truthyS email <;>
    cases h3 : exp.isEmpty <;> cases h4 : edu.isEmpty <;>
    simp only [confidenceOf, h1, h2, h3, h4] <;> decide

/-- Claim C3 amended: for every successfully parsed document the confidence
score equals the fraction of the four-item checklist — name present, email
present, experience non-empty, education non-empty — i.e. `count_present / 4`,
rounded to 2 decimals (raw text and skills are not part of the code's
checklist). -/
theorem C3_confidence_four_item_checklist (nlp : Option Ner) (file : RFile) (fp mt : String)
    (h : (parse_resume nlp file fp mt).error = none) :
    (parse_resume nlp file fp mt).confidence_score =
      fourItemConfidence (parse_resume nlp file fp mt) := by
  rcases hd : extract_text_dispatch file fp mt with e | t
  · rw [parse_resume_of_dispatch_error nlp file fp mt e hd] at h
    simp [errorRecord] at h
  · rw [parse_resume_of_dispatch_ok nlp file fp mt t hd] at h ⊢
    rcases hx : extract_experience t with e2 | l
    · rw [parse_success_of_exp_error nlp t e2 hx] at h
      simp [errorRecord] at h
    · rw [parse_success_of_exp_ok nlp t l hx]
      simp only [fourItemConfidence, piName, piEmail, Option.bind, confidenceOf_eq]

/-- Witness for C3's amended theorem on the concrete email-only document. -/
theorem C3_four_item_witness :
    (parse_resume none ⟨⟨true, false, ["x"], false, false, []⟩,
        ⟨true, ["Contact: john@example.com"]⟩⟩ "cv.docx"
        "application/vnd.openxmlformats-officedocument.wordprocessingml.document").confidence_score =
      fourItemConfidence (parse_resume none ⟨⟨true, false, ["x"], false, false, []⟩,
        ⟨true, ["Contact: john@example.com"]⟩⟩ "cv.docx"
        "application/vnd.openxmlformats-officedocument.wordprocessingml.document") :=
  C3_confidence_four_item_checklist none ⟨⟨true, false, ["x"], false, false, []⟩,
    ⟨true, ["Contact: john@example.com"]⟩⟩ "cv.docx"
    "application/vnd.openxmlformats-officedocument.wordprocessingml.document" (by decide)

/-! ## Claim C6 -/

/-- Counterexample to claim C6: a reachable DOCX document whose paragraph list
is empty joins to the empty string; the parse succeeds (`error` unset) with
`raw_text = some ""`, violating "if `error` is unset, `raw_text` is non-empty". -/
theorem C6_empty_docx_counterexample :
    (parse_resume none ⟨⟨true, false, ["x"], false, false, []⟩, ⟨true, []⟩⟩ "cv.docx"
        "application/vnd.openxmlformats-officedocument.wordprocessingml.document").error = none ∧
    (parse_resume none ⟨⟨true, false, ["x"], false, false, []⟩, ⟨true, []⟩⟩ "cv.docx"
        "application/vnd.openxmlformats-officedocument.wordprocessingml.document").raw_text =
      some "" ∧
    truthyS (parse_resume none ⟨⟨true, false, ["x"], false, false, []⟩, ⟨true, []⟩⟩ "cv.docx"
        "application/vnd.openxmlformats-officedocument.wordprocessingml.document").raw_text =
      false := by
  exact ⟨by decide, by decide, by decide⟩

/-- Text successfully extracted from a PDF is never empty
(resumeparser.py:88–89 raises on empty text). -/
theorem extract_text_from_pdf_ok_ne_empty (f : PdfFile) (t : String)
    (h : extract_text_from_pdf f = Except.ok t) : t ≠ "" := by
  simp only [extract_text_from_pdf] at h
  split_ifs at h <;> simp_all

/-- Claim C6 amended: if `error` is set then all other fields are empty or null
and `raw_text` is null as well; if `error` is unset then `raw_text` is present,
though possibly the empty string (the DOCX path has no emptiness check); for
`application/pdf` input it is additionally non-empty. -/
theorem C6_error_and_raw_text_invariant (nlp : Option Ner) (file : RFile) (fp mt : String) :
    (∀ e, (parse_resume nlp file fp mt).error = some e →
      otherFieldsEmpty (parse_resume nlp file fp mt) ∧
      (parse_resume nlp file fp mt).raw_text = none) ∧
    ((parse_resume nlp file fp mt).error = none →
      ∃ t, (parse_resume nlp file fp mt).raw_text = some t) ∧
    ((parse_resume nlp file fp mt).error = none → mt = "application/pdf" →
      ∃ t, (parse_resume nlp file fp mt).raw_text = some t ∧ t ≠ "") := by
  rcases hd : extract_text_dispatch file fp mt with e | t
  · rw [parse_resume_of_dispatch_error nlp file fp mt e hd]
    refine ⟨fun e2 _ => ⟨?_, rfl⟩, fun hn => by simp [errorRecord] at hn,
      fun hn => by simp [errorRecord] at hn⟩
    exact ⟨rfl, rfl, rfl, rfl, rfl, rfl⟩
  · rw [parse_resume_of_dispatch_ok nlp file fp mt t hd]
    rcases hx : extract_experience t with e2 | l
    · rw [parse_success_of_exp_error nlp t e2 hx]
      refine ⟨fun e3 _ => ⟨?_, rfl⟩, fun hn => by simp [errorRecord] at hn,
        fun hn => by simp [errorRecord] at hn⟩
      exact ⟨rfl, rfl, rfl, rfl, rfl, rfl⟩
    · rw [parse_success_of_exp_ok nlp t l hx]
      refine ⟨fun e3 he3 => by simp at he3, fun _ => ⟨t, rfl⟩, fun _ hmt => ⟨t, rfl, ?_⟩⟩
      rw [extract_text_dispatch, if_pos hmt] at hd
      exact extract_text_from_pdf_ok_ne_empty file.pdf t hd

/-- Witness for C6's amended theorem: the error half on a concrete encrypted
PDF parse. -/
theorem C6_invariant_witness :
    otherFieldsEmpty (parse_resume none ⟨⟨true, true, [], false, false, []⟩, ⟨true, []⟩⟩
      "cv.pdf" "application/pdf") ∧
    (parse_resume none ⟨⟨true, true, [], false, false, []⟩, ⟨true, []⟩⟩
      "cv.pdf" "application/pdf").raw_text = none :=
  (C6_error_and_raw_text_invariant none ⟨⟨true, true, [], false, false, []⟩, ⟨true, []⟩⟩
    "cv.pdf" "application/pdf").1 "PDF is encrypted or password-protected" (by decide)

/-! ## Claim C7 -/

/-- Claim C7 names a code bug: on `elevenEntriesText` the experience extractor
returns eleven identical `(title, company, dates)` entries — neither
deduplicated nor capped at 10 (the dedup/cap block of `extract_experience`
sits after a `return` and never runs). -/
theorem C7_experience_dedup_cap_violated :
    extract_experience elevenEntriesText = Except.ok (List.replicate 11 devAcmeEntry) ∧
    (List.replicate 11 devAcmeEntry).length = 11 ∧
    ¬ (List.replicate 11 devAcmeEntry).Nodup ∧
    10 < (List.replicate 11 devAcmeEntry).length := by
  exact ⟨by decide, by decide, by decide, by decide⟩

/-! ## Claim C8 -/

/-- Claim C8 names a code bug: on `"Experienced in Pyton, js, ReactJS,
Kubernates"` the skill extractor returns only `["JavaScript", "React"]` — the
typo forms "Pyton" and "Kubernates" are not canonicalized to "Python" and
"Kubernetes", contradicting the spec's example and the repository's own test
`test_skill_aliases_and_typos_extraction`. -/
theorem C8_alias_typo_canonicalization_fails :
    extract_skills aliasTypoText = ["JavaScript", "React"] ∧
    "Python" ∉ extract_skills aliasTypoText ∧
    "Kubernetes" ∉ extract_skills aliasTypoText ∧
    "JavaScript" ∈ extract_skills aliasTypoText ∧
    "React" ∈ extract_skills aliasTypoText := by
  exact ⟨by decide, by decide, by decide, by decide, by decide⟩

/-! ## Claim C10 -/

theorem strData_append (a b : String) : (a ++ b).data = a.data ++ b.data := rfl

theorem string_ne_of_get (a b : String) (i : ℕ) (h : a.data.get? i ≠ b.data.get? i) :
    a ≠ b := fun hc => h (by rw [hc])

theorem unsupported_msg_get2 (mt : String) :
    ("Unsupported file type: " ++ mt).data.get? 2 = some 's' := by
  rw [strData_append, List.get?_append (by decide)]
  decide

theorem unsupported_msg_get0 (mt : String) :
    ("Unsupported file type: " ++ mt).data.get? 0 = some 'U' := by
  rw [strData_append, List.get?_append (by decide)]
  decide

theorem unexpected_msg_get2 (e : String) :
    ("Unexpected error: " ++ e).data.get? 2 = some 'e' := by
  rw [strData_append, List.get?_append (by decide)]
  decide

theorem unsupported_ne_docx_msg (mt : String) :
    "Unsupported file type: " ++ mt ≠ "Unable to extract text from DOCX" :=
  string_ne_of_get _ _ 2 (by rw [unsupported_msg_get2]; decide)

theorem unsupported_ne_pdf_unable (mt : String) :
    "Unsupported file type: " ++ mt ≠ "Unable to extract text from PDF" :=
  string_ne_of_get _ _ 2 (by rw [unsupported_msg_get2]; decide)

theorem unsupported_ne_pdf_encrypted (mt : String) :
    "Unsupported file type: " ++ mt ≠ "PDF is encrypted or password-protected" :=
  string_ne_of_get _ _ 0 (by rw [unsupported_msg_get0]; decide)

theorem unsupported_ne_pdf_empty (mt : String) :
    "Unsupported file type: " ++ mt ≠ "PDF contains no extractable text" :=
  string_ne_of_get _ _ 0 (by rw [unsupported_msg_get0]; decide)

theorem unsupported_ne_unexpected (mt e : String) :
    "Unsupported file type: " ++ mt ≠ "Unexpected error: " ++ e :=
  string_ne_of_get _ _ 2 (by rw [unsupported_msg_get2, unexpected_msg_get2]; decide)

/-- Every error message `extract_text_from_pdf` can produce. -/
theorem pdf_error_msgs (f : PdfFile) (e : String)
    (h : extract_text_from_pdf f = Except.error e) :
    e = "PDF is encrypted or password-protected" ∨ e = "Unable to extract text from PDF" ∨
      e = "PDF contains no extractable text" := by
  simp only [extract_text_from_pdf] at h
  split_ifs at h <;> simp_all

/-- The only error message `extract_text_from_docx` can produce. -/
theorem docx_error_msg (f : DocxFile) (e : String)
    (h : extract_text_from_docx f = Except.error e) :
    e = "Unable to extract text from DOCX" := by
  simp only [extract_text_from_docx] at h
  split_ifs at h <;> simp_all

/-- After successful text extraction, any error the parse still reports starts
with "Unexpected error: ". -/
theorem parse_success_error_unexpected (nlp : Option Ner) (t e : String)
    (h : (parse_success nlp t).error = some e) :
    ∃ e2, e = "Unexpected error: " ++ e2 := by
  rcases hx : extract_experience t with e2 | l
  · rw [parse_success_of_exp_error nlp t e2 hx] at h
    simp only [errorRecord, Option.some.injEq] at h
    exact ⟨e2, h.symm⟩
  · rw [parse_success_of_exp_ok nlp t l hx] at h
    simp at h

/-- Claim C10: when the mimetype is neither `application/pdf` nor a
wordprocessingml type, a path ending (case-insensitively) in `.docx` makes
`parse_resume` attempt DOCX extraction rather than failing; and the parse
reports the unsupported-file-type error exactly when all three conditions fail. -/
theorem C10_docx_extension_dispatch (nlp : Option Ner) (file : RFile)
    (filepath mimetype : String) :
    (mimetype ≠ "application/pdf" →
      strEndsWith mimetype "wordprocessingml.document" = false →
      strEndsWith (strToLower filepath) ".docx" = true →
      extract_text_dispatch file filepath mimetype = extract_text_from_docx file.docx) ∧
    ((parse_resume nlp file filepath mimetype).error =
        some ("Unsupported file type: " ++ mimetype) ↔
      (mimetype ≠ "application/pdf" ∧
        strEndsWith mimetype "wordprocessingml.document" = false ∧
        strEndsWith (strToLower filepath) ".docx" = false)) := by
  constructor
  · intro h1 h2 h3
    rw [extract_text_dispatch, if_neg h1, if_pos (by rw [h2, h3]; rfl)]
  · constructor
    · intro he
      by_cases h1 : mimetype = "application/pdf"
      · exfalso
        have hd0 : extract_text_dispatch file filepath mimetype =
            extract_text_from_pdf file.pdf := by rw [extract_text_dispatch, if_pos h1]
        rcases hd : extract_text_from_pdf file.pdf with e | t
        · rw [parse_resume_of_dispatch_error nlp file filepath mimetype e (hd0.trans hd)] at he
          simp only [errorRecord, Option.some.injEq] at he
          rcases pdf_error_msgs file.pdf e hd with hm | hm | hm
          · exact unsupported_ne_pdf_encrypted mimetype (he ▸ hm)
          · exact unsupported_ne_pdf_unable mimetype (he ▸ hm)
          · exact unsupported_ne_pdf_empty mimetype (he ▸ hm)
        · rw [parse_resume_of_dispatch_ok nlp file filepath mimetype t (hd0.trans hd)] at he
          rcases parse_success_error_unexpected nlp t _ he with ⟨e2, he2⟩
          exact unsupported_ne_unexpected mimetype e2 he2
      · by_cases hdx : (strEndsWith mimetype "wordprocessingml.document" ||
            strEndsWith (strToLower filepath) ".docx") = true
        · exfalso
          have hd0 : extract_text_dispatch file filepath mimetype =
              extract_text_from_docx file.docx := by
            rw [extract_text_dispatch, if_neg h1, if_pos hdx]
          rcases hd : extract_text_from_docx file.docx with e | t
          · rw [parse_resume_of_dispatch_error nlp file filepath mimetype e (hd0.trans hd)] at he
            simp only [errorRecord, Option.some.injEq] at he
            exact unsupported_ne_docx_msg mimetype (he ▸ docx_error_msg file.docx e hd)
          · rw [parse_resume_of_dispatch_ok nlp file filepath mimetype t (hd0.trans hd)] at he
            rcases parse_success_error_unexpected nlp t _ he with ⟨e2, he2⟩
            exact unsupported_ne_unexpected mimetype e2 he2
        · simp only [Bool.or_eq_true, not_or, Bool.not_eq_true] at hdx
          exact ⟨h1, hdx.1, hdx.2⟩
    · rintro ⟨h1, h2, h3⟩
      have hd : extract_text_dispatch file filepath mimetype =
          Except.error ("Unsupported file type: " ++ mimetype) := by
        rw [extract_text_dispatch, if_neg h1, if_neg (by rw [h2, h3]; simp)]
      rw [parse_resume_of_dispatch_error nlp file filepath mimetype _ hd]
      rfl

/-! ## Claim C9 -/

theorem dictInsert_snd_mem (P : String → Prop) (m : List (String × String)) (k v : String)
    (hm : ∀ kv ∈ m, P kv.2) (hv : P v) : ∀ kv ∈ dictInsert m k v, P kv.2 := by
  intro kv hkv
  rw [dictInsert] at hkv
  split_ifs at hkv
  · rcases List.mem_map.mp hkv with ⟨p, hp, hpe⟩
    by_cases hpk : (p.1 == k) = true
    · rw [if_pos hpk] at hpe
      rw [← hpe]
      exact hv
    · rw [if_neg hpk] at hpe
      rw [← hpe]
      exact hm p hp
  · rcases List.mem_append.mp hkv with hin | hone
    · exact hm kv hin
    · rw [List.mem_singleton.mp hone]
      exact hv

theorem lowerFold_snd_mem (catalog : List String) (l : List String)
    (hl : ∀ s ∈ l, s ∈ catalog) :
    ∀ acc, (∀ kv ∈ acc, kv.2 ∈ catalog) →
      ∀ kv ∈ l.foldl (fun m s => dictInsert m (strToLower s) s) acc, kv.2 ∈ catalog := by
  induction l with
  | nil => intro acc hacc kv hkv; exact hacc kv hkv
  | cons a l ih =>
    intro acc hacc kv hkv
    rw [List.foldl_cons] at hkv
    exact ih (fun s hs => hl s (List.mem_cons_of_mem _ hs)) _
      (dictInsert_snd_mem _ acc (strToLower a) a hacc (hl a (List.mem_cons_self a l)))
      kv hkv

theorem skillsLowerDict_snd_mem (catalog : List String) :
    ∀ kv ∈ skillsLowerDict catalog, kv.2 ∈ catalog :=
  lowerFold_snd_mem catalog catalog (fun _ hs => hs) [] (by intro kv h; cases h)

theorem bestFold_snd (P : String → Prop) (g : String → ℚ) (m : List (String × String))
    (hm : ∀ kv ∈ m, P kv.2) :
    ∀ acc : ℚ × Option String, (∀ v, acc.2 = some v → P v) →
      ∀ v, (m.foldl (fun acc kv =>
        if Rat.blt acc.1 (g kv.1) then (g kv.1, some kv.2) else acc) acc).2 = some v → P v := by
  induction m with
  | nil => intro acc hacc v hv; exact hacc v hv
  | cons kv m ih =>
    intro acc hacc v hv
    rw [List.foldl_cons] at hv
    refine ih (fun kv2 h2 => hm kv2 (List.mem_cons_of_mem _ h2)) _ ?_ v hv
    intro w hw
    by_cases hb : Rat.blt acc.1 (g kv.1) = true
    · rw [if_pos hb] at hw
      have hw2 : kv.2 = w := Option.some.inj hw
      exact hw2 ▸ hm kv (List.mem_cons_self kv m)
    · rw [if_neg hb] at hw
      exact hacc w hw

theorem bestFold_fst_le (g : String → ℚ) (bound : ℚ) (m : List (String × String))
    (hm : ∀ kv ∈ m, g kv.1 ≤ bound) :
    ∀ acc : ℚ × Option String, acc.1 ≤ bound →
      (m.foldl (fun acc kv =>
        if Rat.blt acc.1 (g kv.1) then (g kv.1, some kv.2) else acc) acc).1 ≤ bound := by
  induction m with
  | nil => intro acc hacc; exact hacc
  | cons kv m ih =>
    intro acc hacc
    rw [List.foldl_cons]
    refine ih (fun kv2 h2 => hm kv2 (List.mem_cons_of_mem _ h2)) _ ?_
    by_cases hb : Rat.blt acc.1 (g kv.1) = true
    · rw [if_pos hb]
      exact hm kv (List.mem_cons_self kv m)
    · rw [if_neg hb]
      exact hacc

theorem bestFuzzy_snd_mem (catalog : List String) (g : String → ℚ) (v : String)
    (h : (bestFuzzy (skillsLowerDict catalog) g).2 = some v) : v ∈ catalog := by
  rw [bestFuzzy] at h
  exact bestFold_snd (fun v => v ∈ catalog) g (skillsLowerDict catalog)
    (skillsLowerDict_snd_mem catalog) (0, none) (fun v hv => by cases hv) v h

theorem bestFuzzy_fst_le (m : List (String × String)) (g : String → ℚ) (bound : ℚ)
    (h0 : (0 : ℚ) ≤ bound) (hm : ∀ kv ∈ m, g kv.1 ≤ bound) :
    (bestFuzzy m g).1 ≤ bound := by
  rw [bestFuzzy]
  exact bestFold_fst_le g bound m hm (0, none) h0

theorem normalize_skill_cases (catalog : List String) (simFn : String → String → ℚ)
    (s : String) :
    normalize_skill catalog simFn s ∈ catalog ∨ normalize_skill catalog simFn s = s ∨
      normalize_skill catalog simFn s = "" := by
  by_cases hs : s = ""
  · right; right
    rw [normalize_skill, if_pos hs]
  · simp only [normalize_skill, if_neg hs]
    rcases hf : dictFind (skillsLowerDict catalog) (strTrim (strToLower s)) with _ | v
    · show (if Rat.blt (mkRat 4 5)
            (bestFuzzy (skillsLowerDict catalog) (simFn (strTrim (strToLower s)))).1 then
          (bestFuzzy (skillsLowerDict catalog) (simFn (strTrim (strToLower s)))).2.getD s
          else s) ∈ catalog ∨ _
      by_cases hb : Rat.blt (mkRat 4 5)
          (bestFuzzy (skillsLowerDict catalog) (simFn (strTrim (strToLower s)))).1 = true
      · rw [if_pos hb]
        rcases ho : (bestFuzzy (skillsLowerDict catalog) (simFn (strTrim (strToLower s)))).2
          with _ | v
        · right; left
          rfl
        · left
          exact bestFuzzy_snd_mem catalog (simFn (strTrim (strToLower s))) v ho
      · rw [if_neg hb]
        right; left
        rfl
    · left
      rw [dictFind] at hf
      rcases Option.map_eq_some'.mp hf with ⟨kv, hkv, hkve⟩
      exact hkve ▸ skillsLowerDict_snd_mem catalog kv (List.mem_of_find?_eq_some hkv)

theorem normalize_skill_keeps_original (catalog : List String) (simFn : String → String → ℚ)
    (s : String) (hs : s ≠ "")
    (hnx : dictFind (skillsLowerDict catalog) (strTrim (strToLower s)) = none)
    (hr : ∀ kv ∈ skillsLowerDict catalog, simFn (strTrim (strToLower s)) kv.1 ≤ mkRat 4 5) :
    normalize_skill catalog simFn s = s := by
  simp only [normalize_skill, if_neg hs]
  rw [hnx]
  show (if Rat.blt (mkRat 4 5)
      (bestFuzzy (skillsLowerDict catalog) (simFn (strTrim (strToLower s)))).1 then
    (bestFuzzy (skillsLowerDict catalog) (simFn (strTrim (strToLower s)))).2.getD s
    else s) = s
  have hle : (bestFuzzy (skillsLowerDict catalog) (simFn (strTrim (strToLower s)))).1 ≤
      mkRat 4 5 := by
    refine bestFuzzy_fst_le (skillsLowerDict catalog) (simFn (strTrim (strToLower s)))
      (mkRat 4 5) ?_ hr
    rw [show (mkRat 4 5 : ℚ) = 4/5 by rw [Rat.mkRat_eq_div]; norm_num]
    norm_num
  cases hb : Rat.blt (mkRat 4 5)
      (bestFuzzy (skillsLowerDict catalog) (simFn (strTrim (strToLower s)))).1 with
  | false => rfl
  | true => exact absurd ((blt_iff_lt _ _).mp hb) (not_lt.mpr hle)

theorem mem_setAdd (l : List String) (x y : String) (h : y ∈ setAdd l x) :
    y ∈ l ∨ y = x := by
  rw [setAdd] at h
  split_ifs at h
  · exact Or.inl h
  · rcases List.mem_append.mp h with hin | hone
    · exact Or.inl hin
    · exact Or.inr (List.mem_singleton.mp hone)

theorem setAdd_nodup (l : List String) (x : String) (h : l.Nodup) : (setAdd l x).Nodup := by
  rw [setAdd]
  split_ifs with hc
  · exact h
  · rw [List.nodup_append]
    refine ⟨h, List.nodup_singleton x, ?_⟩
    intro a ha hax
    rw [List.mem_singleton.mp hax] at ha
    exact hc (List.elem_iff.mpr ha)

theorem stdFold_nodup (f : String → String) (inputs : List String) :
    ∀ acc : List String, acc.Nodup →
      (inputs.foldl (fun acc skill =>
        if f skill ≠ "" then setAdd acc (f skill) else acc) acc).Nodup := by
  induction inputs with
  | nil => intro acc hacc; exact hacc
  | cons a l ih =>
    intro acc hacc
    rw [List.foldl_cons]
    refine ih _ ?_
    by_cases ha : f a ≠ ""
    · rw [if_pos ha]
      exact setAdd_nodup acc (f a) hacc
    · rw [if_neg ha]
      exact hacc

theorem stdFold_mem (f : String → String) (inputs : List String) :
    ∀ (acc : List String) (y : String),
      y ∈ inputs.foldl (fun acc skill =>
        if f skill ≠ "" then setAdd acc (f skill) else acc) acc →
      y ∈ acc ∨ ∃ s ∈ inputs, y = f s ∧ y ≠ "" := by
  induction inputs with
  | nil => intro acc y hy; exact Or.inl hy
  | cons a l ih =>
    intro acc y hy
    rw [List.foldl_cons] at hy
    rcases ih _ y hy with hacc | ⟨s, hsl, hse⟩
    · by_cases ha : f a ≠ ""
      · rw [if_pos ha] at hacc
        rcases mem_setAdd acc (f a) y hacc with h1 | h2
        · exact Or.inl h1
        · exact Or.inr ⟨a, List.mem_cons_self a l, h2, h2 ▸ ha⟩
      · rw [if_neg ha] at hacc
        exact Or.inl hacc
    · exact Or.inr ⟨s, List.mem_cons_of_mem _ hsl, hse⟩

theorem insertSorted_perm (x : String) (l : List String) :
    List.Perm (insertSorted x l) (x :: l) := by
  induction l with
  | nil => rfl
  | cons y t ih =>
    rw [insertSorted]
    split_ifs
    · rfl
    · exact (List.Perm.cons y ih).trans (List.Perm.swap x y t)

theorem sortStrings_perm (l : List String) : List.Perm (sortStrings l) l := by
  induction l with
  | nil => rfl
  | cons x t ih => exact (insertSorted_perm x (sortStrings t)).trans (List.Perm.cons x ih)

/-- Claim C9: `standardize_skills` returns a duplicate-free list whose every
element is a catalog name or one of the original inputs; `normalize_skill`
replaces a string through the fuzzy path only when some catalog similarity exceeds
0.8, otherwise (absent an exact match) the original is kept. -/
theorem C9_standardize_skills_sound (catalog : List String) (simFn : String → String → ℚ)
    (inputs : List String) :
    (standardize_skills catalog simFn inputs).Nodup ∧
    (∀ x ∈ standardize_skills catalog simFn inputs, x ∈ catalog ∨ x ∈ inputs) ∧
    (∀ s, normalize_skill catalog simFn s ∈ catalog ∨ normalize_skill catalog simFn s = s ∨
      normalize_skill catalog simFn s = "") ∧
    (∀ s, s ≠ "" →
      dictFind (skillsLowerDict catalog) (strTrim (strToLower s)) = none →
      (∀ kv ∈ skillsLowerDict catalog, simFn (strTrim (strToLower s)) kv.1 ≤ mkRat 4 5) →
      normalize_skill catalog simFn s = s) := by
  refine ⟨?_, ?_, normalize_skill_cases catalog simFn,
    normalize_skill_keeps_original catalog simFn⟩
  · rw [standardize_skills]
    split_ifs
    · exact List.nodup_nil
    · exact ((sortStrings_perm _).nodup_iff).mpr
        (stdFold_nodup (normalize_skill catalog simFn) inputs [] List.nodup_nil)
  · intro x hx
    rw [standardize_skills] at hx
    split_ifs at hx
    · cases hx
    · have hx2 := (sortStrings_perm _).mem_iff.mp hx
      rcases stdFold_mem (normalize_skill catalog simFn) inputs [] x hx2 with h0 | ⟨s, hsin, hse, hne⟩
      · cases h0
      · rcases normalize_skill_cases catalog simFn s with hc | ho | he
        · exact Or.inl (hse ▸ hc)
        · exact Or.inr (by rw [hse, ho]; exact hsin)
        · exact absurd (hse.trans he) hne

/-- Witness for C9 on a concrete catalog and input list. -/
theorem C9_standardize_skills_witness :
    (standardize_skills ["Python"] (fun _ _ => 0) ["python", "Python", "zzz"]).Nodup ∧
    (∀ x ∈ standardize_skills ["Python"] (fun _ _ => 0) ["python", "Python", "zzz"],
      x ∈ ["Python"] ∨ x ∈ ["python", "Python", "zzz"]) :=
  ⟨(C9_standardize_skills_sound ["Python"] (fun _ _ => 0) ["python", "Python", "zzz"]).1,
   (C9_standardize_skills_sound ["Python"] (fun _ _ => 0) ["python", "Python", "zzz"]).2.1⟩

/-- Witness for C10: mimetype `text/plain` with path `resume.DOCX` dispatches
to DOCX extraction. -/
theorem C10_docx_extension_witness :
    extract_text_dispatch ⟨⟨true, false, [], false, false, []⟩, ⟨true, ["hello"]⟩⟩
        "resume.DOCX" "text/plain" =
      extract_text_from_docx (⟨true, ["hello"]⟩ : DocxFile) :=
  (C10_docx_extension_dispatch none ⟨⟨true, false, [], false, false, []⟩, ⟨true, ["hello"]⟩⟩
    "resume.DOCX" "text/plain").1 (by decide) (by decide) (by decide)

end HireAssist
